import Mathlib

/-!
Shallow embedding of the 1test durable job-queue core: the Postgres-backed
relational queue (`PostgresJobQueue`), the SQS-backed managed queue
(`SqsJobQueue`), and the worker poll loop (`WorkerService`).  Times are
natural numbers of milliseconds since the epoch; job ids and SQS message
receipt handles are natural numbers standing in for UUIDs / opaque handles.
Each backend operation is modelled as a pure state transformer; the SQL
statement of `PostgresJobQueue.dequeue` and the SQS receive with its
visibility timeout are each one atomic step, mirroring the server-side
atomicity the implementation relies on.
-/

/-- Job lifecycle states, from the `JobStatus` enum of the job-queue port. -/
inductive JobStatus
  | pending
  | running
  | completed
  | failed
  | retrying
  deriving DecidableEq, Repr

/-- One row of the `jobs` table used by `PostgresJobQueue`. -/
structure PgRow where
  id : Nat
  queueName : String
  jobData : String
  location : String
  status : JobStatus
  attempts : Nat
  maxAttempts : Nat
  priority : Int
  scheduledFor : Nat
  createdAt : Nat
  startedAt : Option Nat
  completedAt : Option Nat
  error : Option String
  deriving DecidableEq, Repr

/-- The `Job<T>` record returned to callers of the queue port. -/
structure Job where
  id : Nat
  jobData : String
  location : String
  status : JobStatus
  attempts : Nat
  maxAttempts : Nat
  priority : Int
  scheduledFor : Nat
  createdAt : Nat
  startedAt : Option Nat
  completedAt : Option Nat
  error : Option String
  deriving DecidableEq, Repr

/-- `EnqueueOptions` of the job-queue port: optional fields default at use. -/
structure EnqueueOptions where
  location : String
  runAt : Option Nat
  priority : Option Int
  maxAttempts : Option Nat
  deriving DecidableEq, Repr

/-- Field-for-field conversion of a table row into the returned `Job`
(the `RETURNING` clause of the dequeue SQL). -/
def pgRowToJob (r : PgRow) : Job :=
  { id := r.id, jobData := r.jobData, location := r.location, status := r.status,
    attempts := r.attempts, maxAttempts := r.maxAttempts, priority := r.priority,
    scheduledFor := r.scheduledFor, createdAt := r.createdAt,
    startedAt := r.startedAt, completedAt := r.completedAt, error := r.error }

/-- `PostgresJobQueue.enqueue`: insert a fresh pending row, applying the
defaults `runAt = now`, `priority = 0`, `maxAttempts = 3`. -/
def pgEnqueue (qn : String) (jobId : Nat) (jobData : String) (opts : EnqueueOptions)
    (now : Nat) (table : List PgRow) : List PgRow :=
  table ++
    [{ id := jobId, queueName := qn, jobData := jobData, location := opts.location,
       status := JobStatus.pending, attempts := 0,
       maxAttempts := opts.maxAttempts.getD 3, priority := opts.priority.getD 0,
       scheduledFor := opts.runAt.getD now, createdAt := now,
       startedAt := none, completedAt := none, error := none }]

/-- The WHERE clause of the dequeue selection: right queue, `pending`,
already due, and matching the optional location filter. -/
def pgEligible (qn : String) (loc : Option String) (now : Nat) (r : PgRow) : Bool :=
  decide (r.queueName = qn) && decide (r.status = JobStatus.pending) &&
    decide (r.scheduledFor ≤ now) &&
    (match loc with
     | some l => decide (r.location = l)
     | none => true)

/-- The ORDER BY of the dequeue selection: `a` strictly precedes `b` when its
priority is higher, or on equal priority when it is scheduled earlier. -/
def pgBetter (a b : PgRow) : Bool :=
  decide (b.priority < a.priority) ||
    (decide (a.priority = b.priority) && decide (a.scheduledFor < b.scheduledFor))

/-- `ORDER BY priority DESC, scheduled_for ASC LIMIT 1` over the candidate
rows; order ties resolve to the earliest row in table order. -/
def pgSelectBest : List PgRow → Option PgRow
  | [] => none
  | r :: rs =>
      match pgSelectBest rs with
      | none => some r
      | some b => if pgBetter b r then some b else some r

/-- The SET clause applied to the claimed row: `running`, `started_at = NOW()`,
`attempts = attempts + 1`. -/
def pgClaim (now : Nat) (r : PgRow) : PgRow :=
  { r with status := JobStatus.running, startedAt := some now,
           attempts := r.attempts + 1 }

/-- `PostgresJobQueue.dequeue`: one atomic
`UPDATE ... WHERE id = (SELECT ... FOR UPDATE SKIP LOCKED) RETURNING ...`.
Returns the claimed job (if any) and the updated table. -/
def pgDequeue (qn : String) (loc : Option String) (now : Nat)
    (table : List PgRow) : Option Job × List PgRow :=
  match pgSelectBest (table.filter (pgEligible qn loc now)) with
  | none => (none, table)
  | some r =>
      (some (pgRowToJob (pgClaim now r)),
       table.map fun x => if x.id = r.id then pgClaim now x else x)

/-- `PostgresJobQueue.acknowledge`: unconditional
`UPDATE jobs SET status = completed, completed_at = NOW() WHERE id = $2`. -/
def pgAcknowledge (jobId : Nat) (now : Nat) (table : List PgRow) : List PgRow :=
  table.map fun x =>
    if x.id = jobId then
      { x with status := JobStatus.completed, completedAt := some now }
    else x

/-- `PostgresJobQueue.getJob`: point lookup by id. -/
def pgGetJob (jobId : Nat) (table : List PgRow) : Option PgRow :=
  table.find? fun x => x.id == jobId

/-- `PostgresJobQueue.getStatus`: point lookup of the status column. -/
def pgGetStatus (jobId : Nat) (table : List PgRow) : Option JobStatus :=
  (pgGetJob jobId table).map PgRow.status

/-- `PostgresJobQueue.fail`: look the job up (throwing when absent); when
`retry` and `attempts < maxAttempts`, write error plus backoff schedule
(`2^attempts` seconds) with status `retrying` and then reset the status to
`pending` in a second statement; otherwise mark terminally `failed` with
`completed_at` stamped. -/
def pgFail (jobId : Nat) (errMsg : String) (retry : Bool) (now : Nat)
    (table : List PgRow) : Except String (List PgRow) :=
  match pgGetJob jobId table with
  | none => Except.error ("Job " ++ toString jobId ++ " not found")
  | some job =>
      let shouldRetry := retry && decide (job.attempts < job.maxAttempts)
      if shouldRetry then
        let nextRunAt := now + 2 ^ job.attempts * 1000
        let t1 := table.map fun x =>
          if x.id = jobId then
            { x with status := JobStatus.retrying, error := some errMsg,
                     scheduledFor := nextRunAt }
          else x
        Except.ok (t1.map fun x =>
          if x.id = jobId then { x with status := JobStatus.pending } else x)
      else
        Except.ok (table.map fun x =>
          if x.id = jobId then
            { x with status := JobStatus.failed, error := some errMsg,
                     completedAt := some now }
          else x)

/-- The `SqsJobMetadata` carried in an SQS message body and attributes. -/
structure SqsMetadata where
  id : Nat
  location : String
  attempts : Nat
  maxAttempts : Nat
  priority : Int
  scheduledFor : Nat
  createdAt : Nat
  startedAt : Option Nat
  deriving DecidableEq, Repr

/-- One SQS message: a service-assigned receipt handle, the job metadata and
payload, the time at which the service will next make the message visible,
and the optional `error` message attribute set on retry re-sends. -/
structure SqsMessage where
  handle : Nat
  metadata : SqsMetadata
  msgData : String
  visibleAt : Nat
  errAttr : Option String
  deriving DecidableEq, Repr

/-- One entry of the `inFlightJobs` map of `SqsJobQueue`. -/
structure SqsInFlight where
  job : Job
  receiptHandle : Nat
  deriving DecidableEq, Repr

/-- The state of an `SqsJobQueue`: the messages held by the service and the
client-side in-flight map from job id to lease. -/
structure SqsState where
  messages : List SqsMessage
  inFlight : List (Nat × SqsInFlight)
  deriving DecidableEq, Repr

/-- Delay computation of `SqsJobQueue.enqueue`:
`max(0, min(900, floor((scheduledFor - now) / 1000)))` seconds.  Natural
subtraction truncates at zero exactly as the `Math.max(0, ...)` does. -/
def sqsDelaySeconds (scheduledFor now : Nat) : Nat :=
  min 900 ((scheduledFor - now) / 1000)

/-- `SqsJobQueue.enqueue`: send one message carrying the job metadata, with
the per-message delay clamped to the 900-second SQS maximum. -/
def sqsEnqueue (jobId handle : Nat) (jobData : String) (opts : EnqueueOptions)
    (now : Nat) (s : SqsState) : SqsState :=
  let scheduledFor := opts.runAt.getD now
  let msg : SqsMessage :=
    { handle := handle,
      metadata :=
        { id := jobId, location := opts.location, attempts := 0,
          maxAttempts := opts.maxAttempts.getD 3,
          priority := opts.priority.getD 0,
          scheduledFor := scheduledFor, createdAt := now, startedAt := none },
      msgData := jobData,
      visibleAt := now + sqsDelaySeconds scheduledFor now * 1000,
      errAttr := none }
  { s with messages := s.messages ++ [msg] }

/-- The `VisibilityTimeout: 300` seconds passed by `SqsJobQueue.dequeue`,
in milliseconds. -/
def sqsVisibilityTimeoutMs : Nat := 300000

/-- The job built by `SqsJobQueue.dequeue` from a received message:
`running`, attempts incremented, `startedAt` stamped. -/
def sqsBuildJob (m : SqsMessage) (now : Nat) : Job :=
  { id := m.metadata.id, jobData := m.msgData, location := m.metadata.location,
    status := JobStatus.running, attempts := m.metadata.attempts + 1,
    maxAttempts := m.metadata.maxAttempts, priority := m.metadata.priority,
    scheduledFor := m.metadata.scheduledFor, createdAt := m.metadata.createdAt,
    startedAt := some now, completedAt := none, error := none }

/-- The client-side location filter of `SqsJobQueue.dequeue`:
`location && metadata.location !== location`. -/
def sqsLocationMismatch (loc : Option String) (m : SqsMessage) : Bool :=
  match loc with
  | some l => !(m.metadata.location == l)
  | none => false

/-- `SqsJobQueue.dequeue`: receive one visible message (the service makes it
invisible for the visibility-timeout window); on a location mismatch return
null leaving the message undeleted; otherwise build the running job and
record the lease in the in-flight map. -/
def sqsDequeue (loc : Option String) (now : Nat) (s : SqsState) :
    Option Job × SqsState :=
  match s.messages.find? (fun m => decide (m.visibleAt ≤ now)) with
  | none => (none, s)
  | some m =>
      let msgs := s.messages.map fun x =>
        if x.handle = m.handle then
          { x with visibleAt := now + sqsVisibilityTimeoutMs }
        else x
      if sqsLocationMismatch loc m then
        (none, { s with messages := msgs })
      else
        let job := sqsBuildJob m now
        (some job,
         { messages := msgs,
           inFlight := (m.metadata.id,
             { job := job, receiptHandle := m.handle }) ::
               s.inFlight.filter fun p => p.1 != m.metadata.id })

/-- Lookup in the `inFlightJobs` map. -/
def sqsLookupInFlight (jobId : Nat) (s : SqsState) : Option SqsInFlight :=
  (s.inFlight.find? fun p => p.1 == jobId).map Prod.snd

/-- `SqsJobQueue.acknowledge`: throws when the id has no in-flight lease;
otherwise deletes the received message and drops the lease. -/
def sqsAcknowledge (jobId : Nat) (s : SqsState) : Except String SqsState :=
  match sqsLookupInFlight jobId s with
  | none =>
      Except.error ("Job " ++ toString jobId ++
        " not found in in-flight jobs. Cannot acknowledge.")
  | some entry =>
      Except.ok
        { messages := s.messages.filter fun m => m.handle != entry.receiptHandle,
          inFlight := s.inFlight.filter fun p => p.1 != jobId }

/-- `SqsJobQueue.fail`: throws when the id has no in-flight lease; otherwise
always deletes the current message, and when `retry` with attempts below the
ceiling re-sends a new message carrying the already-incremented attempt count
with delay `min(900, 2^attempts)` seconds and the error attribute set. -/
def sqsFail (jobId : Nat) (errMsg : String) (retry : Bool) (now newHandle : Nat)
    (s : SqsState) : Except String SqsState :=
  match sqsLookupInFlight jobId s with
  | none =>
      Except.error ("Job " ++ toString jobId ++
        " not found in in-flight jobs. Cannot mark as failed.")
  | some entry =>
      let job := entry.job
      let shouldRetry := retry && decide (job.attempts < job.maxAttempts)
      let msgs := s.messages.filter fun m => m.handle != entry.receiptHandle
      if shouldRetry then
        let backoffSeconds := min 900 (2 ^ job.attempts)
        let nextRunAt := now + backoffSeconds * 1000
        let newMsg : SqsMessage :=
          { handle := newHandle,
            metadata :=
              { id := job.id, location := job.location, attempts := job.attempts,
                maxAttempts := job.maxAttempts, priority := job.priority,
                scheduledFor := nextRunAt, createdAt := job.createdAt,
                startedAt := job.startedAt },
            msgData := job.jobData,
            visibleAt := now + backoffSeconds * 1000,
            errAttr := some errMsg }
        Except.ok { messages := msgs ++ [newMsg],
                    inFlight := s.inFlight.filter fun p => p.1 != jobId }
      else
        Except.ok { messages := msgs,
                    inFlight := s.inFlight.filter fun p => p.1 != jobId }

/-- `SqsJobQueue.getStatus`: only in-flight jobs are visible; they report
`running`, everything else reports null. -/
def sqsGetStatus (jobId : Nat) (s : SqsState) : Option JobStatus :=
  match sqsLookupInFlight jobId s with
  | some _ => some JobStatus.running
  | none => none

/-- Worker constructor default: `emptyDelay = config.emptyDelay ?? 1000`. -/
def workerEmptyDelayOf (cfg : Option Nat) : Nat := cfg.getD 1000

/-- Worker constructor default: `maxEmptyDelay = config.maxEmptyDelay ?? 30000`. -/
def workerMaxEmptyDelayOf (cfg : Option Nat) : Nat := cfg.getD 30000

/-- One iteration of `WorkerService.runWorkerLoop` as it touches the
`currentEmptyDelay` state: on an empty poll, sleep for the current delay and
then double it capped at `maxEmptyDelay`; on a successful poll, no backoff
sleep and the delay resets to `emptyDelay`.  Returns the sleep performed (if
any) and the new `currentEmptyDelay`. -/
def workerLoopStep (emptyDelay maxEmptyDelay cur : Nat) (gotJob : Bool) :
    Option Nat × Nat :=
  if gotJob then (none, emptyDelay)
  else (some cur, min (cur * 2) maxEmptyDelay)

/-- The `currentEmptyDelay` after `k` consecutive empty polls counted from a
state where the delay is `emptyDelay` (loop start or just after a claim). -/
def emptyRunDelay (emptyDelay maxEmptyDelay : Nat) : Nat → Nat
  | 0 => emptyDelay
  | k + 1 =>
      (workerLoopStep emptyDelay maxEmptyDelay
        (emptyRunDelay emptyDelay maxEmptyDelay k) false).2

/-- Outcome of the external plan executor inside `WorkerService.processJob`:
either the promise rejects or it resolves with a success flag. -/
inductive ExecOutcome
  | throws (msg : String)
  | completes (success : Bool)
  deriving DecidableEq, Repr

/-- The environment `WorkerService.processJob` runs against: whether each
external call succeeds and what the executor does. -/
structure ProcessEnv where
  patchRunningOk : Bool
  execOutcome : ExecOutcome
  patchResultOk : Bool
  patchFailedOk : Bool
  deriving DecidableEq, Repr

/-- Observable actions issued by `WorkerService.processJob`, in order. -/
inductive ProcAct
  | patchRunning
  | executePlan
  | patchResult (status : JobStatus)
  | ackJob
  | patchFailed
  | failJob (retry : Bool)
  deriving DecidableEq, Repr

/-- The catch block of `WorkerService.processJob`: best-effort PATCH of the
run record to failed (its own failure is caught and swallowed, so the block
continues regardless), then `fail(jobId, error, true)`. -/
def processCatch : List ProcAct :=
  [ProcAct.patchFailed, ProcAct.failJob true]

/-- `WorkerService.processJob` as the trace of external actions it performs:
PATCH the run to running, run the executor, PATCH the result, acknowledge;
any throw diverts to the catch block. -/
def processJob (env : ProcessEnv) : List ProcAct :=
  if !env.patchRunningOk then
    ProcAct.patchRunning :: processCatch
  else
    match env.execOutcome with
    | ExecOutcome.throws _ =>
        ProcAct.patchRunning :: ProcAct.executePlan :: processCatch
    | ExecOutcome.completes success =>
        let final := if success then JobStatus.completed else JobStatus.failed
        if !env.patchResultOk then
          ProcAct.patchRunning :: ProcAct.executePlan ::
            ProcAct.patchResult final :: processCatch
        else
          [ProcAct.patchRunning, ProcAct.executePlan,
           ProcAct.patchResult final, ProcAct.ackJob]

/-- Options used by the concrete scenarios below. -/
def scenOpts (ma : Option Nat) : EnqueueOptions :=
  { location := "loc-a", runAt := none, priority := none, maxAttempts := ma }

/-- A pending row of priority `p`, all eligible at the same time. -/
def orderRow (jobId : Nat) (p : Int) : PgRow :=
  { id := jobId, queueName := "q", jobData := "d", location := "loc-a",
    status := JobStatus.pending, attempts := 0, maxAttempts := 3, priority := p,
    scheduledFor := 50, createdAt := 0, startedAt := none, completedAt := none,
    error := none }

/-- Three jobs with priorities [1, 5, 3] eligible at the same time. -/
def pgOrderTable : List PgRow := [orderRow 1 1, orderRow 2 5, orderRow 3 3]

/-- Priorities of three sequential dequeues over `pgOrderTable`. -/
def pgOrderScenario : Option (Int × Int × Int) :=
  match pgDequeue "q" none 100 pgOrderTable with
  | (some j1, t1) =>
      match pgDequeue "q" none 100 t1 with
      | (some j2, t2) =>
          match pgDequeue "q" none 100 t2 with
          | (some j3, _) => some (j1.priority, j2.priority, j3.priority)
          | _ => none
      | _ => none
  | _ => none

/-- End-to-end scenario on the relational backend: enqueue with
`maxAttempts = 2`, claim, fail with retry, claim again after the backoff,
fail with retry again; report the job's final
(status, completedAt, error, attempts). -/
def pgMaxTwoScenario : Option (JobStatus × Option Nat × Option String × Nat) :=
  let t0 := pgEnqueue "q" 1 "d" (scenOpts (some 2)) 0 []
  match pgDequeue "q" none 0 t0 with
  | (some _, t1) =>
      match pgFail 1 "boom" true 10 t1 with
      | Except.ok t2 =>
          match pgDequeue "q" none 3000 t2 with
          | (some _, t3) =>
              match pgFail 1 "boom" true 3010 t3 with
              | Except.ok t4 =>
                  (pgGetJob 1 t4).map fun r =>
                    (r.status, r.completedAt, r.error, r.attempts)
              | _ => none
          | _ => none
      | _ => none
  | _ => none

/-- Intermediate checkpoint of the same scenario: the job's
(status, scheduledFor, error) right after the first retrying fail. -/
def pgMaxTwoAfterFirstFail : Option (JobStatus × Nat × Option String) :=
  let t0 := pgEnqueue "q" 1 "d" (scenOpts (some 2)) 0 []
  match pgDequeue "q" none 0 t0 with
  | (some _, t1) =>
      match pgFail 1 "boom" true 10 t1 with
      | Except.ok t2 =>
          (pgGetJob 1 t2).map fun r => (r.status, r.scheduledFor, r.error)
      | _ => none
  | _ => none

/-- A fresh pending row enqueued with id 7, used to show that the relational
acknowledge does not require a prior claim. -/
def pgNeverClaimedTable : List PgRow := pgEnqueue "q" 7 "d" (scenOpts none) 0 []

/-- An SQS state holding one immediately visible message for job 9. -/
def sqsDoubleAckState0 : SqsState :=
  sqsEnqueue 9 1 "d" (scenOpts none) 0 { messages := [], inFlight := [] }

/-- The state after receiving job 9 from `sqsDoubleAckState0`. -/
def sqsDoubleAckState1 : SqsState := (sqsDequeue none 10 sqsDoubleAckState0).2

/-- The state after acknowledging job 9 once: queue drained, lease dropped. -/
def sqsDoubleAckState2 : SqsState := { messages := [], inFlight := [] }

/-- An SQS state holding a job enqueued at time 0 with `runAt` 1000 seconds
out — beyond the 900-second SQS delay ceiling. -/
def sqsFarFutureState : SqsState :=
  sqsEnqueue 42 1 "d"
    { location := "loc-a", runAt := some 1000000, priority := none,
      maxAttempts := none }
    0 { messages := [], inFlight := [] }

/-- A row already claimed by some other worker (status running). -/
def c1RunningRow : PgRow := { orderRow 1 0 with status := JobStatus.running }

/-- A table holding one running row and one eligible pending row. -/
def c1Table : List PgRow := [c1RunningRow, orderRow 2 0]

/-- The job a dequeue over `c1Table` claims. -/
def c1Job : Job := pgRowToJob (pgClaim 100 (orderRow 2 0))

/-- The table after that dequeue. -/
def c1Post : List PgRow := [c1RunningRow, pgClaim 100 (orderRow 2 0)]

/-- The message sitting in `sqsDoubleAckState0`. -/
def c1SqsMsg : SqsMessage :=
  { handle := 1,
    metadata :=
      { id := 9, location := "loc-a", attempts := 0, maxAttempts := 3,
        priority := 0, scheduledFor := 0, createdAt := 0, startedAt := none },
    msgData := "d", visibleAt := 0, errAttr := none }

/-- The job received from `sqsDoubleAckState0` at time 10. -/
def c1SqsJob : Job := sqsBuildJob c1SqsMsg 10

/-- That message after the receive made it invisible for 300 seconds. -/
def c1SqsMsgAfter : SqsMessage := { c1SqsMsg with visibleAt := 300010 }

/-- The job claimed by the ordered dequeue over `pgOrderTable`. -/
def c2Job : Job := pgRowToJob (pgClaim 100 (orderRow 2 5))

/-- `pgOrderTable` after that dequeue. -/
def c2Post : List PgRow :=
  [orderRow 1 1, pgClaim 100 (orderRow 2 5), orderRow 3 3]

/-- A one-row table tagged with location loc-a. -/
def c7Table : List PgRow := [orderRow 4 2]

/-- The job claimed from `c7Table` when asking for location loc-a. -/
def c7Job : Job := pgRowToJob (pgClaim 100 (orderRow 4 2))

/-- An SQS state holding one visible loc-a message for job 11. -/
def c7SqsState : SqsState :=
  sqsEnqueue 11 3 "d" (scenOpts none) 0 { messages := [], inFlight := [] }

/-- The message held by `c7SqsState`. -/
def c7SqsMsg : SqsMessage :=
  { handle := 3,
    metadata :=
      { id := 11, location := "loc-a", attempts := 0, maxAttempts := 3,
        priority := 0, scheduledFor := 0, createdAt := 0, startedAt := none },
    msgData := "d", visibleAt := 0, errAttr := none }

/-- A claimed row on its second attempt with one retry left. -/
def c3Row : PgRow :=
  { orderRow 5 0 with status := JobStatus.running, attempts := 1 }

/-- The table after failing job 5 with retry at time 100. -/
def c3RetryPost : List PgRow :=
  [{ c3Row with
      status := JobStatus.pending,
      error := some "err",
      scheduledFor := 2100 }]

/-- A claimed row whose attempts have reached the ceiling. -/
def c3TermRow : PgRow :=
  { orderRow 6 0 with status := JobStatus.running, attempts := 3 }

/-- The table after terminally failing job 6 at time 100. -/
def c3TermPost : List PgRow :=
  [{ c3TermRow with
      status := JobStatus.failed,
      error := some "err",
      completedAt := some 100 }]

/-- The in-flight lease recorded in `sqsDoubleAckState1`. -/
def c3SqsEntry : SqsInFlight :=
  { job := { id := 9, jobData := "d", location := "loc-a",
             status := JobStatus.running, attempts := 1, maxAttempts := 3,
             priority := 0, scheduledFor := 0, createdAt := 0,
             startedAt := some 10, completedAt := none, error := none },
    receiptHandle := 1 }

/-- The SQS state after failing job 9 with retry at time 400000: the old
message deleted, a new one re-sent with a 2-second backoff delay. -/
def c3SqsRetryPost : SqsState :=
  { messages :=
      [{ handle := 2,
         metadata := { id := 9, location := "loc-a", attempts := 1,
                       maxAttempts := 3, priority := 0,
                       scheduledFor := 402000, createdAt := 0,
                       startedAt := some 10 },
         msgData := "d", visibleAt := 402000, errAttr := some "err" }],
    inFlight := [] }

/-- The SQS state after terminally failing job 9: everything deleted. -/
def c3SqsTermPost : SqsState := { messages := [], inFlight := [] }

/-- The single row of `pgNeverClaimedTable`. -/
def c4Row : PgRow :=
  { id := 7, queueName := "q", jobData := "d", location := "loc-a",
    status := JobStatus.pending, attempts := 0, maxAttempts := 3,
    priority := 0, scheduledFor := 0, createdAt := 0, startedAt := none,
    completedAt := none, error := none }

/-! ## Helper lemmas -/

theorem pgBetter_irrefl (a : PgRow) : pgBetter a a = false := by
  simp [pgBetter]

theorem pgBetter_asymm {a b : PgRow} (h : pgBetter a b = true) :
    pgBetter b a = false := by
  simp only [pgBetter, Bool.or_eq_true, Bool.and_eq_true, decide_eq_true_eq,
    Bool.or_eq_false_iff, Bool.and_eq_false_iff, decide_eq_false_iff_not] at h ⊢
  omega

theorem pgBetter_neg_trans {x b r : PgRow} (hxb : pgBetter x b = false)
    (hbr : pgBetter b r = false) : pgBetter x r = false := by
  simp only [pgBetter, Bool.or_eq_false_iff, Bool.and_eq_false_iff,
    decide_eq_false_iff_not] at hxb hbr ⊢
  omega

theorem pgSelectBest_eq_none {l : List PgRow} :
    pgSelectBest l = none ↔ l = [] := by
  cases l with
  | nil => simp [pgSelectBest]
  | cons a t =>
      simp only [pgSelectBest]
      cases pgSelectBest t with
      | none => simp
      | some b =>
          by_cases hb : pgBetter b a = true <;> simp [hb]

theorem pgSelectBest_mem : ∀ {l : List PgRow} {r : PgRow},
    pgSelectBest l = some r → r ∈ l := by
  intro l
  induction l with
  | nil => intro r h; simp [pgSelectBest] at h
  | cons a t ih =>
      intro r h
      simp only [pgSelectBest] at h
      cases ht : pgSelectBest t with
      | none =>
          rw [ht] at h
          simp only [Option.some.injEq] at h
          simp [← h]
      | some b =>
          rw [ht] at h
          by_cases hb : pgBetter b a = true
          · simp only [hb, if_true, Option.some.injEq] at h
            exact List.mem_cons_of_mem a (ih (h ▸ ht))
          · simp [hb] at h
            simp [← h]

theorem pgSelectBest_maximal : ∀ {l : List PgRow} {r : PgRow},
    pgSelectBest l = some r → ∀ x ∈ l, pgBetter x r = false := by
  intro l
  induction l with
  | nil => intro r h; simp [pgSelectBest] at h
  | cons a t ih =>
      intro r h x hx
      simp only [pgSelectBest] at h
      cases ht : pgSelectBest t with
      | none =>
          rw [ht] at h
          simp only [Option.some.injEq] at h
          subst h
          rcases List.mem_cons.1 hx with hxa | hxt
          · subst hxa; exact pgBetter_irrefl x
          · exact absurd ht (by simp [pgSelectBest_eq_none, List.ne_nil_of_mem hxt])
      | some b =>
          rw [ht] at h
          by_cases hb : pgBetter b a = true
          · simp only [hb, if_true, Option.some.injEq] at h
            subst h
            rcases List.mem_cons.1 hx with hxa | hxt
            · subst hxa; exact pgBetter_asymm hb
            · exact ih ht x hxt
          · simp [hb] at h
            subst h
            rcases List.mem_cons.1 hx with hxa | hxt
            · subst hxa; exact pgBetter_irrefl x
            · exact pgBetter_neg_trans (ih ht x hxt)
                (Bool.not_eq_true _ ▸ hb)

theorem nodup_ids_inj : ∀ {l : List PgRow},
    (l.map PgRow.id).Nodup → ∀ a ∈ l, ∀ b ∈ l, a.id = b.id → a = b := by
  intro l
  induction l with
  | nil => intro _ a ha; simp at ha
  | cons x t ih =>
      intro h a ha b hb hab
      rw [List.map_cons, List.nodup_cons] at h
      rcases List.mem_cons.1 ha with rfl | hat <;>
        rcases List.mem_cons.1 hb with rfl | hbt
      · rfl
      · exact absurd (hab ▸ List.mem_map_of_mem PgRow.id hbt) h.1
      · exact absurd (hab ▸ List.mem_map_of_mem PgRow.id hat) h.1
      · exact ih h.2 a hat b hbt hab

theorem pgGetJob_map_ite (jobId : Nat) (f : PgRow → PgRow)
    (hid : ∀ r, (f r).id = r.id) (table : List PgRow) :
    pgGetJob jobId (table.map fun x => if x.id = jobId then f x else x) =
      (pgGetJob jobId table).map f := by
  induction table with
  | nil => rfl
  | cons a t ih =>
      by_cases h : a.id = jobId
      · simp [pgGetJob, List.find?, h, hid]
      · simp only [pgGetJob, List.map_cons, List.find?] at ih ⊢
        rw [if_neg h]
        have hbeq : (a.id == jobId) = false := by simp [h]
        rw [hbeq]
        exact ih

theorem pgGetJob_map_ite2 (jobId : Nat) (f g : PgRow → PgRow)
    (hf : ∀ r, (f r).id = r.id) (hg : ∀ r, (g r).id = r.id)
    (table : List PgRow) :
    pgGetJob jobId
      ((table.map fun x => if x.id = jobId then f x else x).map
        fun x => if x.id = jobId then g x else x) =
      (pgGetJob jobId table).map fun r => g (f r) := by
  induction table with
  | nil => rfl
  | cons a t ih =>
      simp only [List.map_cons]
      by_cases h : a.id = jobId
      · have hfa : (f a).id = jobId := by rw [hf a, h]
        simp [pgGetJob, List.find?, h, hfa, hg]
      · simp only [pgGetJob, List.find?] at ih ⊢
        rw [if_neg h, if_neg h]
        have hbeq : (a.id == jobId) = false := by simp [h]
        rw [hbeq]
        exact ih

theorem pgAcknowledge_mem (jobId now : Nat) (table : List PgRow) :
    ∀ x ∈ pgAcknowledge jobId now table, x.id = jobId →
      x.status = JobStatus.completed ∧ x.completedAt = some now := by
  intro x hx hid
  obtain ⟨a, ha, hfa⟩ := List.mem_map.1 hx
  by_cases h : a.id = jobId
  · rw [if_pos h] at hfa
    rw [← hfa]
    exact ⟨rfl, rfl⟩
  · rw [if_neg h] at hfa
    rw [← hfa] at hid
    exact absurd hid h

theorem emptyRunDelay_closed (e m : Nat) (h : e ≤ m) (k : Nat) :
    emptyRunDelay e m k = min (e * 2 ^ k) m := by
  induction k with
  | zero => simp [emptyRunDelay]; omega
  | succ k ih =>
      have h2 : e * 2 ^ (k + 1) = e * 2 ^ k * 2 := by ring
      simp only [emptyRunDelay, workerLoopStep, Bool.false_eq_true, if_false, ih]
      rw [h2]
      generalize e * 2 ^ k = a
      omega

theorem pgEligible_iff {qn : String} {loc : Option String} {now : Nat}
    {r : PgRow} :
    pgEligible qn loc now r = true ↔
      r.queueName = qn ∧ r.status = JobStatus.pending ∧ r.scheduledFor ≤ now ∧
        ∀ l, loc = some l → r.location = l := by
  cases loc <;> simp [pgEligible, and_assoc]

theorem pgDequeue_eq_some {qn : String} {loc : Option String} {now : Nat}
    {table t2 : List PgRow} {j : Job}
    (h : pgDequeue qn loc now table = (some j, t2)) :
    ∃ r, pgSelectBest (table.filter (pgEligible qn loc now)) = some r ∧
      j = pgRowToJob (pgClaim now r) ∧
      t2 = table.map fun x => if x.id = r.id then pgClaim now x else x := by
  unfold pgDequeue at h
  cases hsel : pgSelectBest (table.filter (pgEligible qn loc now)) with
  | none => rw [hsel] at h; simp at h
  | some r =>
      rw [hsel] at h
      simp only [Prod.mk.injEq, Option.some.injEq] at h
      exact ⟨r, rfl, h.1.symm, h.2.symm⟩

theorem sqsDequeue_eq_some {loc : Option String} {now : Nat} {s s2 : SqsState}
    {m : SqsMessage} {j : Job}
    (hfind : s.messages.find? (fun x => decide (x.visibleAt ≤ now)) = some m)
    (h : sqsDequeue loc now s = (some j, s2)) :
    sqsLocationMismatch loc m = false ∧ j = sqsBuildJob m now ∧
      s2 = { messages := s.messages.map fun x =>
               if x.handle = m.handle then
                 { x with visibleAt := now + sqsVisibilityTimeoutMs }
               else x,
             inFlight := (m.metadata.id,
               { job := j, receiptHandle := m.handle }) ::
                 s.inFlight.filter fun p => p.1 != m.metadata.id } := by
  unfold sqsDequeue at h
  rw [hfind] at h
  by_cases hmis : sqsLocationMismatch loc m = true
  · simp [hmis] at h
  · rw [Bool.not_eq_true] at hmis
    simp only [hmis, Bool.false_eq_true, if_false, Prod.mk.injEq,
      Option.some.injEq] at h
    exact ⟨hmis, h.1.symm, by rw [← h.2, ← h.1]⟩

theorem find?_filter_ne_key (jobId : Nat) (l : List (Nat × SqsInFlight)) :
    (l.filter fun p => p.1 != jobId).find? (fun p => p.1 == jobId) = none := by
  rw [List.find?_eq_none]
  intro p hp
  have h2 := (List.mem_filter.1 hp).2
  simp only [bne_iff_ne, ne_eq] at h2
  simp [h2]

/-! ## Claim theorems -/

/-- Claim C9: in the worker's poll loop, the sleep after an empty dequeue
starts at `emptyDelay` (default 1000 ms), doubles after each successive
empty poll up to at most `maxEmptyDelay` (default 30000 ms), and resets to
`emptyDelay` immediately after any poll that returns a job. -/
theorem C9_worker_backoff (e m cur k : Nat) (h : e ≤ m) :
    (workerLoopStep e m (emptyRunDelay e m k) false).1 =
      some (min (e * 2 ^ k) m) ∧
    workerLoopStep e m cur true = (none, e) ∧
    workerEmptyDelayOf none = 1000 ∧ workerMaxEmptyDelayOf none = 30000 := by
  refine ⟨?_, rfl, rfl, rfl⟩
  simp [workerLoopStep, emptyRunDelay_closed e m h k]

/-- Witness for C9 at the default configuration. -/
theorem C9_worker_backoff_witness :
    (workerLoopStep 1000 30000 (emptyRunDelay 1000 30000 5) false).1 =
      some (min (1000 * 2 ^ 5) 30000) ∧
    workerLoopStep 1000 30000 777 true = (none, 1000) ∧
    workerEmptyDelayOf none = 1000 ∧ workerMaxEmptyDelayOf none = 30000 :=
  C9_worker_backoff 1000 30000 777 5 (by decide)

/-- Claim C10: the worker acknowledges only after the result report to the
run store succeeds; if the executor completes but the run-store update
throws, the job is never acknowledged — the worker best-effort marks the
run failed (swallowing that update's own failure) and calls
`fail(jobId, error, retry = true)`. -/
theorem C10_ack_only_after_report (env : ProcessEnv) (success : Bool)
    (hexec : env.execOutcome = ExecOutcome.completes success)
    (hpatch : env.patchResultOk = false) :
    ProcAct.ackJob ∉ processJob env ∧
    ProcAct.failJob true ∈ processJob env ∧
    ProcAct.patchFailed ∈ processJob env ∧
    (∀ b, processJob { env with patchFailedOk := b } = processJob env) ∧
    (∀ e2 : ProcessEnv, ProcAct.ackJob ∈ processJob e2 →
      e2.patchResultOk = true) := by
  obtain ⟨pr, eo, prr, pf⟩ := env
  simp only at hexec hpatch
  subst hexec hpatch
  refine ⟨?_, ?_, ?_, ?_, ?_⟩
  · cases pr <;> simp [processJob, processCatch]
  · cases pr <;> simp [processJob, processCatch]
  · cases pr <;> simp [processJob, processCatch]
  · intro b; cases pr <;> simp [processJob, processCatch]
  · intro e2 h2
    obtain ⟨pr2, eo2, prr2, pf2⟩ := e2
    cases pr2
    · simp [processJob, processCatch] at h2
    · cases eo2 with
      | throws msg => simp [processJob, processCatch] at h2
      | completes s2 =>
          cases prr2
          · simp [processJob, processCatch] at h2
          · rfl

/-- Witness for C10: executor completes successfully, result PATCH fails. -/
theorem C10_ack_only_after_report_witness :
    ProcAct.ackJob ∉ processJob
      ⟨true, ExecOutcome.completes true, false, true⟩ ∧
    ProcAct.failJob true ∈ processJob
      ⟨true, ExecOutcome.completes true, false, true⟩ ∧
    ProcAct.patchFailed ∈ processJob
      ⟨true, ExecOutcome.completes true, false, true⟩ ∧
    (∀ b, processJob { (⟨true, ExecOutcome.completes true, false, true⟩ :
        ProcessEnv) with patchFailedOk := b } =
      processJob ⟨true, ExecOutcome.completes true, false, true⟩) ∧
    (∀ e2 : ProcessEnv, ProcAct.ackJob ∈ processJob e2 →
      e2.patchResultOk = true) :=
  C10_ack_only_after_report ⟨true, ExecOutcome.completes true, false, true⟩
    true rfl rfl

/-- Claim C6: failing a job id the backend no longer recognizes (no stored
row on the relational backend; no in-flight lease on the managed backend)
raises an explicit error rather than being silently swallowed. -/
theorem C6_unknown_fail_errors :
    (∀ (jobId : Nat) (msg : String) (retry : Bool) (now : Nat)
       (table : List PgRow), pgGetJob jobId table = none →
       pgFail jobId msg retry now table =
         Except.error ("Job " ++ toString jobId ++ " not found")) ∧
    (∀ (jobId : Nat) (msg : String) (retry : Bool) (now h2 : Nat)
       (s : SqsState), sqsLookupInFlight jobId s = none →
       sqsFail jobId msg retry now h2 s =
         Except.error ("Job " ++ toString jobId ++
           " not found in in-flight jobs. Cannot mark as failed.")) := by
  constructor
  · intro jobId msg retry now table h
    simp [pgFail, h]
  · intro jobId msg retry now h2 s h
    simp [sqsFail, h]

/-- Witness for C6: failing unknown id 5 on an empty table and empty queue
state errors on both backends. -/
theorem C6_unknown_fail_errors_witness :
    pgFail 5 "e" true 0 [] =
      Except.error ("Job " ++ toString 5 ++ " not found") ∧
    sqsFail 5 "e" true 0 1 { messages := [], inFlight := [] } =
      Except.error ("Job " ++ toString 5 ++
        " not found in in-flight jobs. Cannot mark as failed.") :=
  ⟨C6_unknown_fail_errors.1 5 "e" true 0 [] (by decide),
   C6_unknown_fail_errors.2 5 "e" true 0 1 { messages := [], inFlight := [] }
     (by decide)⟩

/-- Claim C1: at most one concurrent claimant holds a job at a time.  Each
backend claim is one atomic step: on the relational backend the atomic
locking dequeue only selects pending rows, so while a job's row is
`running` under another claimant no dequeue can return that job; on the
managed backend a received message immediately becomes invisible for the
visibility-timeout window, so no receive within that window can pick the
same message. -/
theorem C1_mutual_exclusion :
    (∀ (qn : String) (loc : Option String) (now : Nat) (table t2 : List PgRow)
       (r0 : PgRow) (j : Job),
       (table.map PgRow.id).Nodup → r0 ∈ table →
       r0.status = JobStatus.running →
       pgDequeue qn loc now table = (some j, t2) → j.id ≠ r0.id) ∧
    (∀ (loc : Option String) (now : Nat) (s s2 : SqsState) (m : SqsMessage)
       (j : Job),
       s.messages.find? (fun x => decide (x.visibleAt ≤ now)) = some m →
       sqsDequeue loc now s = (some j, s2) →
       ∀ y ∈ s2.messages, y.handle = m.handle →
         ∀ u, u < now + sqsVisibilityTimeoutMs → ¬ (y.visibleAt ≤ u)) := by
  constructor
  · intro qn loc now table t2 r0 j hnodup hmem hrun hdq
    obtain ⟨r, hsel, hj, _⟩ := pgDequeue_eq_some hdq
    have hrf := pgSelectBest_mem hsel
    have hrt : r ∈ table := (List.mem_filter.1 hrf).1
    have hpend : r.status = JobStatus.pending :=
      (pgEligible_iff.1 (List.mem_filter.1 hrf).2).2.1
    intro heq
    have hjid : j.id = r.id := by rw [hj]; rfl
    have hr0 : r = r0 :=
      nodup_ids_inj hnodup r hrt r0 hmem (by rw [← hjid, heq])
    rw [hr0, hrun] at hpend
    simp at hpend
  · intro loc now s s2 m j hfind hdq y hy hyh u hu
    obtain ⟨_, _, hs2⟩ := sqsDequeue_eq_some hfind hdq
    rw [hs2] at hy
    obtain ⟨x, hx, hfx⟩ := List.mem_map.1 hy
    by_cases hxh : x.handle = m.handle
    · rw [if_pos hxh] at hfx
      rw [← hfx]
      simp only []
      omega
    · rw [if_neg hxh] at hfx
      rw [← hfx] at hyh
      exact absurd hyh hxh

/-- Witness for C1: a dequeue over a table holding a running row claims a
different job, and the received SQS message is invisible 200 seconds into
its 300-second window. -/
theorem C1_mutual_exclusion_witness :
    c1Job.id ≠ c1RunningRow.id ∧ ¬ (c1SqsMsgAfter.visibleAt ≤ 200000) :=
  ⟨C1_mutual_exclusion.1 "q" none 100 c1Table c1Post c1RunningRow c1Job
      (by decide) (by decide) (by decide) (by decide),
   C1_mutual_exclusion.2 none 10 sqsDoubleAckState0 sqsDoubleAckState1
      c1SqsMsg c1SqsJob (by decide) (by decide) c1SqsMsgAfter (by decide)
      (by decide) 200000 (by decide)⟩

/-- Claim C2: the relational dequeue claims exactly the best eligible job —
eligibility is pending status, due schedule, matching queue and (when
given) matching location; among eligible rows none strictly precedes the
claimed one in (priority desc, scheduledFor asc) order; the claimed job is
running with attempts incremented and startedAt stamped; dequeue returns
null exactly when no row is eligible; and priorities [1, 5, 3] dequeue in
order [5, 3, 1]. -/
theorem C2_dequeue_best :
    (∀ (qn : String) (loc : Option String) (now : Nat) (r : PgRow),
       pgEligible qn loc now r = true ↔
         r.queueName = qn ∧ r.status = JobStatus.pending ∧
           r.scheduledFor ≤ now ∧ ∀ l, loc = some l → r.location = l) ∧
    (∀ (qn : String) (loc : Option String) (now : Nat)
       (table t2 : List PgRow) (j : Job),
       pgDequeue qn loc now table = (some j, t2) →
       ∃ r ∈ table, pgEligible qn loc now r = true ∧
         j = pgRowToJob (pgClaim now r) ∧
         j.status = JobStatus.running ∧ j.attempts = r.attempts + 1 ∧
         j.startedAt = some now ∧
         (∀ x ∈ table, pgEligible qn loc now x = true →
           pgBetter x r = false) ∧
         t2 = table.map fun x => if x.id = r.id then pgClaim now x else x) ∧
    (∀ (qn : String) (loc : Option String) (now : Nat) (table : List PgRow),
       (pgDequeue qn loc now table).1 = none ↔
         ∀ x ∈ table, pgEligible qn loc now x = false) ∧
    pgOrderScenario = some (5, 3, 1) := by
  refine ⟨?_, ?_, ?_, by decide⟩
  · intro qn loc now r; exact pgEligible_iff
  · intro qn loc now table t2 j hdq
    obtain ⟨r, hsel, hj, hT⟩ := pgDequeue_eq_some hdq
    have hrf := pgSelectBest_mem hsel
    refine ⟨r, (List.mem_filter.1 hrf).1, (List.mem_filter.1 hrf).2, hj,
      by rw [hj]; rfl, by rw [hj]; rfl, by rw [hj]; rfl, ?_, hT⟩
    intro x hx hex
    exact pgSelectBest_maximal hsel x (List.mem_filter.2 ⟨hx, hex⟩)
  · intro qn loc now table
    unfold pgDequeue
    cases hsel : pgSelectBest (table.filter (pgEligible qn loc now)) with
    | none =>
        simp only [hsel]
        constructor
        · intro _ x hx
          have hnil : table.filter (pgEligible qn loc now) = [] :=
            pgSelectBest_eq_none.1 hsel
          cases hex : pgEligible qn loc now x with
          | false => rfl
          | true =>
              have : x ∈ table.filter (pgEligible qn loc now) :=
                List.mem_filter.2 ⟨hx, hex⟩
              rw [hnil] at this
              simp at this
        · intro _; trivial
    | some r =>
        simp only [hsel]
        constructor
        · intro h; simp at h
        · intro hall
          exfalso
          have hrf := pgSelectBest_mem hsel
          have hsplit := List.mem_filter.1 hrf
          rw [hall r hsplit.1] at hsplit
          simp at hsplit

/-- Witness for C2: the ordered dequeue over `pgOrderTable` claims the
priority-5 row and it is maximal among the eligible rows. -/
theorem C2_dequeue_best_witness :
    ∃ r ∈ pgOrderTable, pgEligible "q" none 100 r = true ∧
      c2Job = pgRowToJob (pgClaim 100 r) ∧
      c2Job.status = JobStatus.running ∧ c2Job.attempts = r.attempts + 1 ∧
      c2Job.startedAt = some 100 ∧
      (∀ x ∈ pgOrderTable, pgEligible "q" none 100 x = true →
        pgBetter x r = false) ∧
      c2Post = pgOrderTable.map fun x =>
        if x.id = r.id then pgClaim 100 x else x :=
  C2_dequeue_best.2.1 "q" none 100 pgOrderTable c2Post c2Job (by decide)

/-- Claim C7: a job enqueued with one location is never returned by a
dequeue requesting a different location, on either backend; on the managed
backend a received message whose location does not match makes dequeue
return null without deleting the message, which merely stays invisible
until its visibility timeout expires. -/
theorem C7_location_filtering :
    (∀ (qn l : String) (now : Nat) (table t2 : List PgRow) (j : Job),
       pgDequeue qn (some l) now table = (some j, t2) → j.location = l) ∧
    (∀ (l : String) (now : Nat) (s s2 : SqsState) (j : Job),
       sqsDequeue (some l) now s = (some j, s2) → j.location = l) ∧
    (∀ (l : String) (now : Nat) (s : SqsState) (m : SqsMessage),
       s.messages.find? (fun x => decide (x.visibleAt ≤ now)) = some m →
       m.metadata.location ≠ l →
       (sqsDequeue (some l) now s).1 = none ∧
       (sqsDequeue (some l) now s).2.inFlight = s.inFlight ∧
       { m with visibleAt := now + sqsVisibilityTimeoutMs } ∈
         (sqsDequeue (some l) now s).2.messages ∧
       (sqsDequeue (some l) now s).2.messages.length =
         s.messages.length) := by
  refine ⟨?_, ?_, ?_⟩
  · intro qn l now table t2 j hdq
    obtain ⟨r, hsel, hj, _⟩ := pgDequeue_eq_some hdq
    have hrf := pgSelectBest_mem hsel
    have hl : r.location = l :=
      (pgEligible_iff.1 (List.mem_filter.1 hrf).2).2.2.2 l rfl
    rw [hj]
    exact hl
  · intro l now s s2 j hdq
    cases hfind : s.messages.find? (fun x => decide (x.visibleAt ≤ now)) with
    | none => unfold sqsDequeue at hdq; rw [hfind] at hdq; simp at hdq
    | some m =>
        obtain ⟨hmis, hj, _⟩ := sqsDequeue_eq_some hfind hdq
        simp only [sqsLocationMismatch, Bool.not_eq_false',
          beq_iff_eq] at hmis
        rw [hj]
        exact hmis
  · intro l now s m hfind hne
    have hmis : sqsLocationMismatch (some l) m = true := by
      simp [sqsLocationMismatch, hne]
    have heq : sqsDequeue (some l) now s =
        (none, { s with messages := s.messages.map fun x =>
          if x.handle = m.handle then
            { x with visibleAt := now + sqsVisibilityTimeoutMs }
          else x }) := by
      unfold sqsDequeue
      rw [hfind]
      simp only [hmis, if_true]
    rw [heq]
    refine ⟨rfl, rfl, ?_, by simp⟩
    have hm : m ∈ s.messages := List.mem_of_find?_eq_some hfind
    have hmm := List.mem_map_of_mem
      (fun x => if x.handle = m.handle then
        { x with visibleAt := now + sqsVisibilityTimeoutMs } else x) hm
    have hfm : (fun x => if x.handle = m.handle then
        { x with visibleAt := now + sqsVisibilityTimeoutMs } else x) m =
        { m with visibleAt := now + sqsVisibilityTimeoutMs } := by
      simp
    rw [hfm] at hmm
    exact hmm

/-- Witness for C7: the loc-a dequeue claims the loc-a job, the SQS dequeue
returns the loc-a job to a loc-a consumer, and a eu-west consumer leaves
the loc-a message undeleted. -/
theorem C7_location_filtering_witness :
    c7Job.location = "loc-a" ∧
    ((sqsDequeue (some "eu-west") 20 c7SqsState).1 = none ∧
     (sqsDequeue (some "eu-west") 20 c7SqsState).2.inFlight =
       c7SqsState.inFlight ∧
     { c7SqsMsg with visibleAt := 20 + sqsVisibilityTimeoutMs } ∈
       (sqsDequeue (some "eu-west") 20 c7SqsState).2.messages ∧
     (sqsDequeue (some "eu-west") 20 c7SqsState).2.messages.length =
       c7SqsState.messages.length) :=
  ⟨C7_location_filtering.1 "q" "loc-a" 100 c7Table
      [pgClaim 100 (orderRow 4 2)] c7Job (by decide),
   C7_location_filtering.2.2 "eu-west" 20 c7SqsState c7SqsMsg (by decide)
      (by decide)⟩

/-- Claim C3: for a claimed job, `fail(id, error, retry)` records the error
and, when `retry` holds with attempts below the ceiling, reschedules the
job to the failure time plus `2^attempts` seconds (capped at 900 seconds
on the managed backend, uncapped on the relational one) back in `pending`;
otherwise the job is terminally failed — on the relational backend with
`completedAt` stamped and the error preserved, on the managed backend by
deleting the message without a re-send.  With `maxAttempts = 2` the second
retrying fail after the second claim is terminal. -/
theorem C3_fail_retry_semantics :
    (∀ (jobId : Nat) (msg : String) (now : Nat) (table t2 : List PgRow)
       (job : PgRow),
       pgGetJob jobId table = some job → job.attempts < job.maxAttempts →
       pgFail jobId msg true now table = Except.ok t2 →
       pgGetJob jobId t2 = some { job with
         status := JobStatus.pending,
         error := some msg,
         scheduledFor := now + 2 ^ job.attempts * 1000 }) ∧
    (∀ (jobId : Nat) (msg : String) (retry : Bool) (now : Nat)
       (table t2 : List PgRow) (job : PgRow),
       pgGetJob jobId table = some job →
       (retry = false ∨ job.maxAttempts ≤ job.attempts) →
       pgFail jobId msg retry now table = Except.ok t2 →
       pgGetJob jobId t2 = some { job with
         status := JobStatus.failed,
         error := some msg, completedAt := some now }) ∧
    (∀ (jobId : Nat) (msg : String) (now h2 : Nat) (s s2 : SqsState)
       (entry : SqsInFlight),
       sqsLookupInFlight jobId s = some entry →
       entry.job.attempts < entry.job.maxAttempts →
       sqsFail jobId msg true now h2 s = Except.ok s2 →
       ∃ nm ∈ s2.messages, nm.metadata.id = entry.job.id ∧
         nm.metadata.attempts = entry.job.attempts ∧
         nm.errAttr = some msg ∧
         nm.visibleAt = now + min 900 (2 ^ entry.job.attempts) * 1000 ∧
         nm.metadata.scheduledFor =
           now + min 900 (2 ^ entry.job.attempts) * 1000) ∧
    (∀ (jobId : Nat) (msg : String) (retry : Bool) (now h2 : Nat)
       (s s2 : SqsState) (entry : SqsInFlight),
       sqsLookupInFlight jobId s = some entry →
       (retry = false ∨ entry.job.maxAttempts ≤ entry.job.attempts) →
       sqsFail jobId msg retry now h2 s = Except.ok s2 →
       (∀ x ∈ s2.messages, x ∈ s.messages) ∧
       sqsGetStatus jobId s2 = none) ∧
    pgMaxTwoAfterFirstFail = some (JobStatus.pending, 2010, some "boom") ∧
    pgMaxTwoScenario = some (JobStatus.failed, some 3010, some "boom", 2) := by
  refine ⟨?_, ?_, ?_, ?_, by decide, by decide⟩
  · intro jobId msg now table t2 job hget hlt heq
    have hd : decide (job.attempts < job.maxAttempts) = true :=
      decide_eq_true hlt
    simp only [pgFail, hget, hd, Bool.and_self, if_true,
      Except.ok.injEq] at heq
    rw [← heq, pgGetJob_map_ite2 jobId
      (fun x => { x with
          status := JobStatus.retrying,
          error := some msg,
          scheduledFor := now + 2 ^ job.attempts * 1000 })
      (fun x => { x with status := JobStatus.pending })
      (fun r => rfl) (fun r => rfl), hget]
    cases job
    rfl
  · intro jobId msg retry now table t2 job hget hterm heq
    have hd : (retry && decide (job.attempts < job.maxAttempts)) = false := by
      rcases hterm with h | h
      · rw [h, Bool.false_and]
      · rw [decide_eq_false (Nat.not_lt.mpr h), Bool.and_false]
    simp only [pgFail, hd, hget, Bool.false_eq_true, if_false,
      Except.ok.injEq] at heq
    rw [← heq, pgGetJob_map_ite jobId
      (fun x => { x with
          status := JobStatus.failed,
          error := some msg,
          completedAt := some now })
      (fun r => rfl), hget]
    cases job
    rfl
  · intro jobId msg now h2 s s2 entry hlook hlt heq
    have hd : decide (entry.job.attempts < entry.job.maxAttempts) = true :=
      decide_eq_true hlt
    simp only [sqsFail, hlook, hd, Bool.and_self, if_true,
      Except.ok.injEq] at heq
    refine ⟨{ handle := h2,
              metadata := { id := entry.job.id,
                            location := entry.job.location,
                            attempts := entry.job.attempts,
                            maxAttempts := entry.job.maxAttempts,
                            priority := entry.job.priority,
                            scheduledFor :=
                              now + min 900 (2 ^ entry.job.attempts) * 1000,
                            createdAt := entry.job.createdAt,
                            startedAt := entry.job.startedAt },
              msgData := entry.job.jobData,
              visibleAt := now + min 900 (2 ^ entry.job.attempts) * 1000,
              errAttr := some msg }, ?_, rfl, rfl, rfl, rfl, rfl⟩
    rw [← heq]
    simp
  · intro jobId msg retry now h2 s s2 entry hlook hterm heq
    have hd : (retry && decide (entry.job.attempts < entry.job.maxAttempts))
        = false := by
      rcases hterm with h | h
      · rw [h, Bool.false_and]
      · rw [decide_eq_false (Nat.not_lt.mpr h), Bool.and_false]
    simp only [sqsFail, hlook, hd, Bool.false_eq_true, if_false,
      Except.ok.injEq] at heq
    constructor
    · intro x hx
      rw [← heq] at hx
      exact List.mem_of_mem_filter hx
    · rw [← heq]
      simp only [sqsGetStatus, sqsLookupInFlight, find?_filter_ne_key,
        Option.map_none']

/-- Witness for C3: a retrying fail reschedules by `2^1` seconds on both
backends (capped arithmetic on SQS), and a terminal fail stamps
`completedAt` on the relational backend and deletes everything on the
managed one. -/
theorem C3_fail_retry_semantics_witness :
    pgGetJob 5 c3RetryPost = some { c3Row with
      status := JobStatus.pending,
      error := some "err",
      scheduledFor := 100 + 2 ^ c3Row.attempts * 1000 } ∧
    pgGetJob 6 c3TermPost = some { c3TermRow with
      status := JobStatus.failed,
      error := some "err",
      completedAt := some 100 } ∧
    (∃ nm ∈ c3SqsRetryPost.messages, nm.metadata.id = c3SqsEntry.job.id ∧
      nm.metadata.attempts = c3SqsEntry.job.attempts ∧
      nm.errAttr = some "err" ∧
      nm.visibleAt = 400000 + min 900 (2 ^ c3SqsEntry.job.attempts) * 1000 ∧
      nm.metadata.scheduledFor =
        400000 + min 900 (2 ^ c3SqsEntry.job.attempts) * 1000) ∧
    ((∀ x ∈ c3SqsTermPost.messages, x ∈ sqsDoubleAckState1.messages) ∧
      sqsGetStatus 9 c3SqsTermPost = none) :=
  ⟨C3_fail_retry_semantics.1 5 "err" 100 [c3Row] c3RetryPost c3Row
      (by decide) (by decide) rfl,
   C3_fail_retry_semantics.2.1 6 "err" true 100 [c3TermRow] c3TermPost
      c3TermRow (by decide) (Or.inr (by decide)) rfl,
   C3_fail_retry_semantics.2.2.1 9 "err" 400000 2 sqsDoubleAckState1
      c3SqsRetryPost c3SqsEntry (by decide) (by decide) rfl,
   C3_fail_retry_semantics.2.2.2.1 9 "err" false 400000 2 sqsDoubleAckState1
      c3SqsTermPost c3SqsEntry (by decide) (Or.inl rfl) rfl⟩

/-- Claim C4 counterexample: on the relational backend, a freshly enqueued
job — never dequeued, attempts 0, no startedAt — is moved directly from
`pending` to `completed` by a single `acknowledge` call, so a sequence of
queue operations can move a never-claimed job to a terminal state. -/
theorem C4_counterexample_skip_running :
    (pgGetJob 7 pgNeverClaimedTable).map
        (fun r => (r.status, r.attempts, r.startedAt)) =
      some (JobStatus.pending, 0, none) ∧
    (pgGetJob 7 (pgAcknowledge 7 5 pgNeverClaimedTable)).map
        (fun r => (r.status, r.attempts, r.startedAt)) =
      some (JobStatus.completed, 0, none) := by decide

/-- Claim C4 (amended): on the managed backend a never-claimed job cannot be
completed or failed — acknowledge and fail raise for an id with no
in-flight lease; on the relational backend acknowledge performs no claim
check and moves any stored row, claimed or not, straight to completed. -/
theorem C4_amended_no_skip :
    (∀ (jobId : Nat) (s : SqsState), sqsLookupInFlight jobId s = none →
       (∃ e, sqsAcknowledge jobId s = Except.error e) ∧
       (∀ (msg : String) (retry : Bool) (now h2 : Nat),
         ∃ e, sqsFail jobId msg retry now h2 s = Except.error e)) ∧
    (∀ (jobId now : Nat) (table : List PgRow) (x : PgRow),
       x ∈ table → x.id = jobId →
       { x with status := JobStatus.completed, completedAt := some now } ∈
         pgAcknowledge jobId now table) := by
  constructor
  · intro jobId s hlook
    refine ⟨⟨"Job " ++ toString jobId ++
      " not found in in-flight jobs. Cannot acknowledge.",
      by simp [sqsAcknowledge, hlook]⟩, ?_⟩
    intro msg retry now h2
    exact ⟨"Job " ++ toString jobId ++
      " not found in in-flight jobs. Cannot mark as failed.",
      by simp [sqsFail, hlook]⟩
  · intro jobId now table x hx hid
    have hmm := List.mem_map_of_mem
      (fun y => if y.id = jobId then
        { y with status := JobStatus.completed, completedAt := some now }
      else y) hx
    have hfx : (fun y => if y.id = jobId then
        { y with status := JobStatus.completed, completedAt := some now }
      else y) x =
        { x with status := JobStatus.completed, completedAt := some now } := by
      simp [hid]
    rw [hfx] at hmm
    exact hmm

/-- Witness for C4 (amended): acknowledging or failing id 3 on an empty
managed-queue state errors, and acknowledging the never-claimed row of
`pgNeverClaimedTable` puts its completed version in the table. -/
theorem C4_amended_no_skip_witness :
    (∃ e, sqsAcknowledge 3 { messages := [], inFlight := [] } =
      Except.error e) ∧
    (∀ (msg : String) (retry : Bool) (now h2 : Nat),
      ∃ e, sqsFail 3 msg retry now h2 { messages := [], inFlight := [] } =
        Except.error e) ∧
    { c4Row with status := JobStatus.completed, completedAt := some 5 } ∈
      pgAcknowledge 7 5 pgNeverClaimedTable :=
  ⟨(C4_amended_no_skip.1 3 { messages := [], inFlight := [] }
      (by decide)).1,
   (C4_amended_no_skip.1 3 { messages := [], inFlight := [] }
      (by decide)).2,
   C4_amended_no_skip.2 7 5 pgNeverClaimedTable c4Row (by decide)
      (by decide)⟩

/-- Claim C5 counterexample: on the managed backend acknowledge is not
idempotent — after receiving job 9 and acknowledging it once, a second
acknowledge of the same id raises, because the first call removed the
in-flight lease. -/
theorem C5_counterexample_double_ack :
    (sqsDequeue none 10 sqsDoubleAckState0).1.isSome = true ∧
    sqsAcknowledge 9 sqsDoubleAckState1 = Except.ok sqsDoubleAckState2 ∧
    sqsAcknowledge 9 sqsDoubleAckState2 =
      Except.error "Job 9 not found in in-flight jobs. Cannot acknowledge." :=
  ⟨rfl, rfl, rfl⟩

/-- Claim C5 (amended): on the relational backend acknowledge is idempotent
— each call (a total operation that cannot raise) marks the row completed
and stamps completedAt, and a repeated call leaves the job completed; on
the managed backend a second acknowledge of the same id raises because the
first deleted the in-flight lease. -/
theorem C5_amended_idempotent_ack :
    (∀ (jobId n1 : Nat) (table : List PgRow),
       ∀ x ∈ pgAcknowledge jobId n1 table, x.id = jobId →
         x.status = JobStatus.completed ∧ x.completedAt = some n1) ∧
    (∀ (jobId n1 n2 : Nat) (table : List PgRow),
       ∀ x ∈ pgAcknowledge jobId n2 (pgAcknowledge jobId n1 table),
         x.id = jobId → x.status = JobStatus.completed ∧
           x.completedAt = some n2) :=
  ⟨fun jobId n1 table => pgAcknowledge_mem jobId n1 table,
   fun jobId n1 n2 table =>
     pgAcknowledge_mem jobId n2 (pgAcknowledge jobId n1 table)⟩

/-- Witness for C5 (amended): acknowledging job 7 twice leaves its row
completed with the second completion stamp. -/
theorem C5_amended_idempotent_ack_witness :
    ({ c4Row with status := JobStatus.completed, completedAt := some 4 }
        : PgRow).status = JobStatus.completed ∧
    ({ c4Row with status := JobStatus.completed, completedAt := some 4 }
        : PgRow).completedAt = some 4 :=
  C5_amended_idempotent_ack.2 7 3 4 pgNeverClaimedTable
    { c4Row with status := JobStatus.completed, completedAt := some 4 }
    (by decide) (by decide)

/-- Claim C8 counterexample: a job enqueued at time 0 with runAt 1000
seconds out has its delay clamped to 900 seconds and is claimed by dequeue
at time 900000 — before its scheduledFor of 1000000 — since no re-delay
hop exists in the managed backend. -/
theorem C8_counterexample_early_claim :
    sqsFarFutureState.messages.map SqsMessage.visibleAt = [900000] ∧
    ((sqsDequeue none 900000 sqsFarFutureState).1.map
      (fun j => (j.id, j.status, j.scheduledFor))) =
      some (42, JobStatus.running, 1000000) := by decide

/-- Claim C8 (amended): the managed backend clamps the per-message delay to
`min(900, floor((runAt - now) / 1000))` seconds.  A job whose runAt is a
whole number of seconds at most 900 s out is not claimable before runAt;
but every enqueued message becomes visible within 900 s, and beyond the
window the delay saturates at exactly 900 s, so a job scheduled further
out becomes claimable before runAt — it is not re-delayed in hops. -/
theorem C8_amended_delay_clamp :
    (∀ (jobId handle : Nat) (d loc : String) (now k : Nat)
       (pri : Option Int) (ma : Option Nat),
       k ≤ 900 →
       ∀ t, t < now + k * 1000 →
         (sqsDequeue none t (sqsEnqueue jobId handle d
           { location := loc, runAt := some (now + k * 1000),
             priority := pri, maxAttempts := ma }
           now { messages := [], inFlight := [] })).1 = none) ∧
    (∀ (scheduledFor now : Nat), 900000 ≤ scheduledFor - now →
       sqsDelaySeconds scheduledFor now = 900) ∧
    (∀ (jobId handle : Nat) (d : String) (opts : EnqueueOptions) (now : Nat)
       (s : SqsState),
       ∃ msg, (sqsEnqueue jobId handle d opts now s).messages =
         s.messages ++ [msg] ∧ msg.visibleAt ≤ now + 900000 ∧
         msg.visibleAt =
           now + sqsDelaySeconds (opts.runAt.getD now) now * 1000) := by
  refine ⟨?_, ?_, ?_⟩
  · intro jobId handle d loc now k pri ma hk t ht
    have hd : sqsDelaySeconds (now + k * 1000) now = k := by
      simp only [sqsDelaySeconds]
      omega
    have hstate : sqsEnqueue jobId handle d
        { location := loc, runAt := some (now + k * 1000),
          priority := pri, maxAttempts := ma }
        now { messages := [], inFlight := [] } =
        { messages :=
            [{ handle := handle,
               metadata := { id := jobId,
                             location := loc,
                             attempts := 0,
                             maxAttempts := ma.getD 3,
                             priority := pri.getD 0,
                             scheduledFor := now + k * 1000,
                             createdAt := now,
                             startedAt := none },
               msgData := d, visibleAt := now + k * 1000,
               errAttr := none }],
          inFlight := [] } := by
      simp [sqsEnqueue, hd]
    rw [hstate]
    have hfind : List.find? (fun m => decide (m.visibleAt ≤ t))
        [({ handle := handle,
            metadata := { id := jobId,
                          location := loc,
                          attempts := 0,
                          maxAttempts := ma.getD 3,
                          priority := pri.getD 0,
                          scheduledFor := now + k * 1000,
                          createdAt := now,
                          startedAt := none },
            msgData := d, visibleAt := now + k * 1000,
            errAttr := none } : SqsMessage)] = none := by
      simp only [List.find?]
      rw [decide_eq_false (by omega : ¬(now + k * 1000 ≤ t))]
    unfold sqsDequeue
    rw [hfind]
  · intro scheduledFor now h
    simp only [sqsDelaySeconds]
    omega
  · intro jobId handle d opts now s
    refine ⟨_, rfl, ?_, rfl⟩
    show now + sqsDelaySeconds (opts.runAt.getD now) now * 1000 ≤
      now + 900000
    have hle : sqsDelaySeconds (opts.runAt.getD now) now ≤ 900 :=
      min_le_left 900 _
    omega

/-- Witness for C8 (amended): a job with runAt exactly 900 s out is still
invisible one millisecond before runAt, and a schedule 1000 s out clamps
to a 900-second delay. -/
theorem C8_amended_delay_clamp_witness :
    (sqsDequeue none 899999 (sqsEnqueue 2 4 "d"
      { location := "loc-a", runAt := some (0 + 900 * 1000),
        priority := none, maxAttempts := none }
      0 { messages := [], inFlight := [] })).1 = none ∧
    sqsDelaySeconds 1000000 0 = 900 :=
  ⟨C8_amended_delay_clamp.1 2 4 "d" "loc-a" 0 900 none none (by decide)
      899999 (by decide),
   C8_amended_delay_clamp.2.1 1000000 0 (by decide)⟩
